import Mathlib

/-!
# Verification of the adaptive quiz engine (`services/quiz_service.py`)

Shallow embedding of the quiz service of this repository and proofs about it.

Modelling conventions, used throughout:

* Machine integers are `Nat`/`Int`; database ids are `Nat`.
* Timestamps are modelled at UTC calendar-day granularity as `Int` day numbers
  (`func.date(timestamp)` is then the timestamp itself).  All inputs relevant to
  the verified claims are full-day separated, so the day-granular model agrees
  with the datetime-granular source on them.
* `ORDER BY random()` followed by `LIMIT n` is modelled as taking the first `n`
  rows in the ambient stored order, and `random.shuffle` as the identity
  permutation: all verified properties (lengths, id-distinctness, membership)
  are invariant under permutation, and the theorems quantify over every stored
  order of the database.
* Sessions are created with `autoflush=False` (`database.py`), and nothing in
  the quiz flow flushes early: a query issued inside a unit of work sees only
  rows already in the database — rows pending from a `db.add` of the same unit
  are invisible until the final commit, while in-memory mutations of
  already-loaded rows are visible through the session's identity map (no query
  in this flow filters on a mutated column).  A session is modelled as a pair
  of database states (`committed`, `current`), equal between requests; inside
  `submit_quiz_results` the pending inserts are threaded separately from the
  query-visible rows and merged — appended after the existing rows, matching
  flush order — only at commit.  `rollback` restores the committed state.
* Python `float` accuracy ratios are modelled as exact rationals (`Rat`), and
  `int(x)` truncation of non-negative ratios as `Nat` floor division.
-/

set_option maxHeartbeats 1000000
set_option autoImplicit false

namespace QuizService

/-! ## Data model (`models.py`) -/

/-- Row of the `questions` table (`models.py`, class `Question`). -/
structure Question where
  id : Nat
  topic : String
  question_text : String
  correct_answer : String
  options : List String
  difficulty : String
deriving Repr, DecidableEq

/-- Row of the `quiz_attempts` table (`models.py`, class `QuizAttempt`).
`timestamp` is the UTC day number of the attempt. -/
structure QuizAttempt where
  user_id : Nat
  question_id : Nat
  is_correct : Bool
  timestamp : Int
deriving Repr, DecidableEq

/-- Row of the `user_progress` table (`models.py`, class `UserProgress`).
`streak_days` and `best_streak` carry the column default `0` when not set
explicitly at creation. -/
structure UserProgress where
  user_id : Nat
  topic : String
  total_questions : Nat
  correct_answers : Nat
  last_activity : Int
  streak_days : Nat
  best_streak : Nat
deriving Repr, DecidableEq

/-- Row of the `achievements` table (`models.py`, class `Achievement`). -/
structure Achievement where
  user_id : Nat
  achievement_type : String
  title : String
  description : String
  icon : String
  earned_date : Int
deriving Repr, DecidableEq

/-- The database state: the four tables the quiz service touches. -/
structure DB where
  questions : List Question
  attempts : List QuizAttempt
  progress : List UserProgress
  achievements : List Achievement
deriving Repr, DecidableEq

/-! ### Concrete fixtures used by witness theorems -/

/-- A question row with the given id and topic. -/
def mkQ (i : Nat) (t : String) : Question := ⟨i, t, "q", "a", ["a", "b"], "easy"⟩

/-- An attempt row for user `uid` on question `qid` on day `d`. -/
def mkAtt (uid qid : Nat) (c : Bool) (d : Int) : QuizAttempt := ⟨uid, qid, c, d⟩

/-- A database where user 1 has 3 attempts (1 correct) on "algebra" and 2
attempts on "geometry". -/
def weakDB : DB :=
  ⟨[mkQ 1 "algebra", mkQ 2 "geometry"],
    [mkAtt 1 1 true 0, mkAtt 1 1 false 0, mkAtt 1 1 false 0,
      mkAtt 1 2 true 0, mkAtt 1 2 false 0], [], []⟩

/-- A database whose question pool holds only 2 questions. -/
def twoQDB : DB := ⟨[mkQ 1 "algebra", mkQ 2 "geometry"], [], [], []⟩

/-! ## Weak-topic detection (`QuizService._get_weak_topics`) -/

/-- Embeds `questions_per_quiz` from `QuizService.__init__`. -/
def questions_per_quiz : Nat := 5

/-- The join `Question ⋈ QuizAttempt` on `Question.id == QuizAttempt.question_id`
restricted to one user: one `(topic, is_correct)` row per matching pair, as
produced by the query in `_get_weak_topics`. -/
def joined_attempts (db : DB) (user_id : Nat) : List (String × Bool) :=
  db.questions.flatMap fun q =>
    (db.attempts.filter fun a => a.question_id == q.id && a.user_id == user_id).map
      fun a => (q.topic, a.is_correct)

/-- Embeds `func.count(QuizAttempt.id)` for one topic group of the `_get_weak_topics`
query. -/
def topic_total (db : DB) (user_id : Nat) (topic : String) : Nat :=
  ((joined_attempts db user_id).filter fun r => r.1 == topic).length

/-- Embeds `func.sum(func.cast(QuizAttempt.is_correct, INTEGER))` for one topic group
of the `_get_weak_topics` query (`None` for an empty group and `0` coincide
after the `correct or 0` guard in the source). -/
def topic_correct (db : DB) (user_id : Nat) (topic : String) : Nat :=
  ((joined_attempts db user_id).filter fun r => r.1 == topic && r.2).length

/-- The distinct group keys of the `GROUP BY Question.topic` clause. -/
def user_topics (db : DB) (user_id : Nat) : List String :=
  ((joined_attempts db user_id).map Prod.fst).dedup

/-- Embeds `accuracy = (correct or 0) / total if total > 0 else 0` from
`_get_weak_topics`, as the exact rational `correct / total` (`mkRat` is exact
division; the divisor is positive in the guarded branch). -/
def topic_accuracy (db : DB) (user_id : Nat) (topic : String) : Rat :=
  if topic_total db user_id topic > 0 then
    mkRat (topic_correct db user_id topic) (topic_total db user_id topic)
  else 0

/-- The `0.70` accuracy threshold of `_get_weak_topics`, as an exact rational. -/
def weak_threshold : Rat := mkRat 7 10

/-- The `topic_stats` query result of `_get_weak_topics`: group keys passing
`HAVING count >= 3`. -/
def topic_stats_keys (db : DB) (user_id : Nat) : List String :=
  (user_topics db user_id).filter fun t => 3 ≤ topic_total db user_id t

/-- The `weak_topics` accumulator of `_get_weak_topics`: `(topic, accuracy)`
pairs with accuracy `< 0.7`, in group order. -/
def weak_pairs (db : DB) (user_id : Nat) : List (String × Rat) :=
  (topic_stats_keys db user_id).filterMap fun t =>
    let accuracy := topic_accuracy db user_id t
    if accuracy < weak_threshold then some (t, accuracy) else none

/-- Embeds `QuizService._get_weak_topics`: topics with at least 3 attempts
(`HAVING count >= 3`) and accuracy `< 0.7`, sorted ascending by accuracy,
first `limit` names.  Python's `list.sort(key=...)` is a stable sort; it is
modelled by the (also stable, structurally recursive) insertion sort on the
accuracy component, which produces the identical list.  Note: the source's
cast argument `db.bind.dialect.INTEGER` names a nonexistent dialect
attribute, so at run time the query construction raises and the method's
`except` returns `[]` on every call; this definition computes the query's
intended statistics and is strictly stronger — every property proved of it
below also holds of the constant-`[]` behavior. -/
def get_weak_topics (db : DB) (user_id : Nat) (limit : Nat := 3) : List String :=
  let sorted := (weak_pairs db user_id).insertionSort fun x y => x.2 ≤ y.2
  (sorted.map Prod.fst).take limit

/-- Every pair produced by the weak-topic filter stage carries the accuracy of
its own topic and satisfies the floor and threshold conditions. -/
theorem mem_weak_pairs (db : DB) (user_id : Nat) (p : String × Rat)
    (hp : p ∈ weak_pairs db user_id) :
    p.1 ∈ user_topics db user_id ∧ 3 ≤ topic_total db user_id p.1 ∧
      p.2 = topic_accuracy db user_id p.1 ∧ p.2 < weak_threshold := by
  rcases List.mem_filterMap.mp hp with ⟨t, ht, hsome⟩
  rcases List.mem_filter.mp ht with ⟨htu, htot⟩
  simp only at hsome
  by_cases hacc : topic_accuracy db user_id t < weak_threshold
  · simp only [hacc, if_pos] at hsome
    cases hsome
    exact ⟨htu, by simpa using htot, rfl, hacc⟩
  · simp [hacc] at hsome

/-- C1: the weak-topic detector returns only topic names with at least 3
recorded attempts by the user and accuracy strictly below 0.70; the list is
sorted ascending by accuracy, holds at most `limit` names, and is empty when no
topic of the user's history qualifies. -/
theorem weak_topics_spec (db : DB) (user_id limit : Nat) :
    (∀ t ∈ get_weak_topics db user_id limit,
        t ∈ user_topics db user_id ∧ 3 ≤ topic_total db user_id t ∧
          topic_accuracy db user_id t < weak_threshold) ∧
    (get_weak_topics db user_id limit).length ≤ limit ∧
    List.Pairwise (fun t₁ t₂ => topic_accuracy db user_id t₁ ≤ topic_accuracy db user_id t₂)
      (get_weak_topics db user_id limit) ∧
    ((∀ t ∈ user_topics db user_id,
        ¬(3 ≤ topic_total db user_id t ∧ topic_accuracy db user_id t < weak_threshold)) →
      get_weak_topics db user_id limit = []) := by
  refine ⟨?_, ?_, ?_, ?_⟩
  · intro t ht
    unfold get_weak_topics at ht
    simp only at ht
    have ht' := (List.take_sublist _ _).mem ht
    rcases List.mem_map.mp ht' with ⟨p, hp, rfl⟩
    have hpw := (List.perm_insertionSort _ _).mem_iff.mp hp
    have := mem_weak_pairs db user_id p hpw
    exact ⟨this.1, this.2.1, this.2.2.1 ▸ this.2.2.2⟩
  · unfold get_weak_topics
    simp only [List.length_take]
    exact min_le_left _ _
  · unfold get_weak_topics
    simp only
    apply List.Pairwise.sublist (List.take_sublist _ _)
    rw [List.pairwise_map]
    haveI : IsTotal (String × Rat) (fun x y => x.2 ≤ y.2) := ⟨fun a b => le_total a.2 b.2⟩
    haveI : IsTrans (String × Rat) (fun x y => x.2 ≤ y.2) :=
      ⟨fun _ _ _ hab hbc => le_trans hab hbc⟩
    have hsorted : List.Pairwise (fun x y : String × Rat => x.2 ≤ y.2)
        ((weak_pairs db user_id).insertionSort fun x y => x.2 ≤ y.2) :=
      List.sorted_insertionSort _ _
    refine List.Pairwise.imp_of_mem ?_ hsorted
    intro a b ha hb hab
    have ha' := mem_weak_pairs db user_id a ((List.perm_insertionSort _ _).mem_iff.mp ha)
    have hb' := mem_weak_pairs db user_id b ((List.perm_insertionSort _ _).mem_iff.mp hb)
    calc topic_accuracy db user_id a.1 = a.2 := ha'.2.2.1.symm
      _ ≤ b.2 := hab
      _ = topic_accuracy db user_id b.1 := hb'.2.2.1
  · intro h
    have hnil : weak_pairs db user_id = [] := by
      rw [weak_pairs, List.filterMap_eq_nil_iff]
      intro t ht
      rw [topic_stats_keys] at ht
      rcases List.mem_filter.mp ht with ⟨htu, htot⟩
      have : ¬ topic_accuracy db user_id t < weak_threshold := fun hacc =>
        h t htu ⟨by simpa using htot, hacc⟩
      simp [this]
    unfold get_weak_topics
    simp [hnil]

/-! ## Adaptive quiz generation (`QuizService.generate_adaptive_quiz`) -/

/-- A question projection as produced by `QuizService._format_question`. -/
structure QuestionOut where
  id : Nat
  topic : String
  question_text : String
  correct_answer : String
  options : List String
deriving Repr, DecidableEq

/-- Embeds `QuizService._format_question`. -/
def format_question (q : Question) : QuestionOut :=
  ⟨q.id, q.topic, q.question_text, q.correct_answer, q.options⟩

/-- The optional `query.filter(Question.difficulty == difficulty)` clause used
by both question getters. -/
def difficulty_filter (difficulty : Option String) (l : List Question) : List Question :=
  match difficulty with
  | some d => l.filter fun q => q.difficulty == d
  | none => l

/-- Embeds `QuizService._get_questions_by_topics`: questions whose topic is in
`topics`, optionally filtered by difficulty, first `count` of them. -/
def get_questions_by_topics (db : DB) (topics : List String) (count : Nat)
    (difficulty : Option String) : List QuestionOut :=
  ((difficulty_filter difficulty
      (db.questions.filter fun q => decide (q.topic ∈ topics))).take count).map format_question

/-- Embeds `QuizService._get_random_questions`: questions not in `exclude_ids` (the
clause is skipped for a falsy, i.e. empty, exclusion list), optionally filtered
by difficulty, first `count` of them. -/
def get_random_questions (db : DB) (count : Nat) (exclude_ids : List Nat := [])
    (difficulty : Option String := none) : List QuestionOut :=
  let base := if exclude_ids.isEmpty then db.questions
    else db.questions.filter fun q => !(decide (q.id ∈ exclude_ids))
  ((difficulty_filter difficulty base).take count).map format_question

/-- The cold-start default topic set of `generate_adaptive_quiz`. -/
def default_topics : List String := ["mathematics", "science", "programming", "general"]

/-- Embeds `int(self.questions_per_quiz * 0.7)` from `generate_adaptive_quiz`
(`int(5 * 0.7) = 3`). -/
def weak_questions_count : Nat := 3

/-- Embeds `QuizService.generate_adaptive_quiz`: 70% of the slots from weak topics
(default set on cold start), the remainder random excluding already selected
ids, truncated to `questions_per_quiz`. -/
def generate_adaptive_quiz (db : DB) (user_id : Nat) (difficulty : Option String) :
    List QuestionOut :=
  let weak_topics := get_weak_topics db user_id
  let weak_topics := if weak_topics.isEmpty then default_topics else weak_topics
  let weak_questions := get_questions_by_topics db weak_topics weak_questions_count difficulty
  let questions := weak_questions
  let remaining_count := questions_per_quiz - questions.length
  let questions := if 0 < remaining_count then
      questions ++ get_random_questions db remaining_count (questions.map (·.id)) difficulty
    else questions
  questions.take questions_per_quiz

/-- The difficulty clause commutes with any other row filter. -/
theorem difficulty_filter_filter (d : Option String) (p : Question → Bool) (l : List Question) :
    difficulty_filter d (l.filter p) = (difficulty_filter d l).filter p := by
  cases d with
  | none => rfl
  | some s =>
    simp only [difficulty_filter, List.filter_filter]
    exact List.filter_congr fun x _ => Bool.and_comm _ _

/-- The difficulty clause yields a sublist of the table. -/
theorem difficulty_filter_sublist (d : Option String) (l : List Question) :
    (difficulty_filter d l).Sublist l := by
  cases d with
  | none => exact List.Sublist.refl l
  | some s => exact List.filter_sublist l

/-- Removing a duplicate-free selection `s` of rows of `A` by id leaves exactly
`A.length - s.length` rows, when `A` itself has duplicate-free ids. -/
theorem length_filter_excluded {A s : List Question}
    (hs : s.Sublist A) (hA : (A.map Question.id).Nodup) :
    (A.filter fun q => !(decide (q.id ∈ s.map Question.id))).length
      = A.length - s.length := by
  induction hs with
  | slnil => simp
  | @cons s' A' a h ih =>
    simp only [List.map_cons, List.nodup_cons] at hA
    have ha : a.id ∉ s'.map Question.id := fun hmem =>
      hA.1 ((h.map Question.id).subset hmem)
    rw [List.filter_cons]
    simp only [ha, decide_False, Bool.not_false, if_pos, List.length_cons, ih hA.2]
    have := h.length_le
    omega
  | @cons₂ s' A' a h ih =>
    simp only [List.map_cons, List.nodup_cons] at hA
    rw [List.filter_cons]
    have hcongr : A'.filter (fun q => !(decide (q.id ∈ (a :: s').map Question.id)))
        = A'.filter (fun q => !(decide (q.id ∈ s'.map Question.id))) := by
      apply List.filter_congr
      intro q hq
      have hne : q.id ≠ a.id := fun heq =>
        hA.1 (heq ▸ List.mem_map_of_mem Question.id hq)
      simp [hne]
    have hmem : a.id ∈ (a :: s').map Question.id := by simp
    simp only [hmem, decide_True, Bool.not_true, if_neg, Bool.false_eq_true,
      not_false_eq_true]
    rw [hcongr, ih hA.2]
    simp only [List.length_cons]
    omega

/-- C2: `generate_adaptive_quiz` returns exactly
`min questions_per_quiz available` projections, where `available` is the number
of questions matching the optional difficulty filter, and no two returned
projections share a question id (given that the question table has
duplicate-free ids, its primary-key invariant). -/
theorem generate_quiz_spec (db : DB) (user_id : Nat) (difficulty : Option String)
    (hids : (db.questions.map Question.id).Nodup) :
    (generate_adaptive_quiz db user_id difficulty).length
      = min questions_per_quiz (difficulty_filter difficulty db.questions).length ∧
    ((generate_adaptive_quiz db user_id difficulty).map QuestionOut.id).Nodup := by
  have hAsub := difficulty_filter_sublist difficulty db.questions
  have hAid : ((difficulty_filter difficulty db.questions).map Question.id).Nodup :=
    List.Nodup.sublist (hAsub.map Question.id) hids
  simp only [generate_adaptive_quiz, questions_per_quiz, weak_questions_count]
  generalize (if (get_weak_topics db user_id).isEmpty = true then default_topics
      else get_weak_topics db user_id) = T
  set A := difficulty_filter difficulty db.questions with hAdef
  set w := get_questions_by_topics db T 3 difficulty with hwdef
  set s := (A.filter fun q => decide (q.topic ∈ T)).take 3 with hsdef
  have hw : w = s.map format_question := by
    rw [hwdef, hsdef, hAdef]
    unfold get_questions_by_topics
    rw [difficulty_filter_filter]
  have hssub : s.Sublist A := (List.take_sublist _ _).trans (List.filter_sublist _)
  have hwlen : w.length = s.length := by rw [hw, List.length_map]
  have hslen : s.length ≤ 3 := by
    rw [hsdef, List.length_take]; exact min_le_left _ _
  have hsA : s.length ≤ A.length := hssub.length_le
  have hwids : w.map (fun x => x.id) = s.map Question.id := by
    rw [hw, List.map_map]; rfl
  have hif : 0 < 5 - w.length := by omega
  rw [if_pos hif]
  set pool := A.filter (fun q => !(decide (q.id ∈ s.map Question.id))) with hpooldef
  have hr : get_random_questions db (5 - w.length) (w.map fun x => x.id) difficulty
      = (pool.take (5 - w.length)).map format_question := by
    rw [hwids, hpooldef, hAdef]
    unfold get_random_questions
    simp only
    have hbase : (if (s.map Question.id).isEmpty then db.questions
        else db.questions.filter fun q => !(decide (q.id ∈ s.map Question.id)))
        = db.questions.filter fun q => !(decide (q.id ∈ s.map Question.id)) := by
      split
      · next h =>
          rw [List.isEmpty_iff.mp h]
          simp
      · rfl
    rw [hbase, difficulty_filter_filter]
  have hpoolsub : pool.Sublist A := List.filter_sublist _
  have hpoollen : pool.length = A.length - s.length := length_filter_excluded hssub hAid
  rw [hr]
  have hrlen : ((pool.take (5 - w.length)).map format_question).length
      = min (5 - s.length) (A.length - s.length) := by
    rw [List.length_map, List.length_take, hpoollen, hwlen]
  constructor
  · rw [List.length_take, List.length_append, hrlen, hwlen]
    omega
  · apply List.Nodup.sublist ((List.take_sublist _ _).map QuestionOut.id)
    rw [List.map_append]
    have h1 : (w.map QuestionOut.id).Nodup := by
      have : w.map QuestionOut.id = s.map Question.id := hwids
      rw [this]
      exact List.Nodup.sublist (hssub.map Question.id) hAid
    have h2 : (((pool.take (5 - w.length)).map format_question).map QuestionOut.id).Nodup := by
      rw [List.map_map]
      have : (pool.take (5 - w.length)).map (QuestionOut.id ∘ format_question)
          = (pool.take (5 - w.length)).map Question.id := rfl
      rw [this]
      exact List.Nodup.sublist
        (((List.take_sublist _ _).trans hpoolsub).map Question.id) hAid
    refine List.Nodup.append h1 h2 ?_
    intro a ha hb
    rw [show w.map QuestionOut.id = s.map Question.id from hwids] at ha
    rw [List.map_map] at hb
    rw [show (pool.take (5 - w.length)).map (QuestionOut.id ∘ format_question)
        = (pool.take (5 - w.length)).map Question.id from rfl] at hb
    rcases List.mem_map.mp hb with ⟨q, hq, rfl⟩
    have hqpool := (List.take_sublist _ _).mem hq
    have := (List.mem_filter.mp hqpool).2
    simp only [Bool.not_eq_true', decide_eq_false_iff_not] at this
    exact this ha

/-! ## AI question synthesis (`QuizService._generate_ai_questions`)

The synthesizer consumes the outcome of the `gemini_service.get_response`
call: either the `"text"` field of its response dict, or the fact that the
call raised before returning.  `json.loads` of the Python standard library is
treated as an uninterpreted parameter producing an optional JSON value
(`none` models `json.JSONDecodeError`); the claims hold for every parser. -/

/-- A parsed JSON value, as produced by `json.loads`. -/
inductive JValue where
  | null : JValue
  | bool (b : Bool) : JValue
  | num (n : Int) : JValue
  | str (s : String) : JValue
  | arr (elems : List JValue) : JValue
  | obj (fields : List (String × JValue)) : JValue

/-- Python truthiness of a JSON value (`if question["question_text"] and ...`). -/
def truthy : JValue → Bool
  | .null => false
  | .bool b => b
  | .num n => n != 0
  | .str s => s ≠ ""
  | .arr xs => !xs.isEmpty
  | .obj fs => !fs.isEmpty

/-- Python `len()` of a JSON value; `.error` models the `TypeError` raised on
unsized values. -/
def pyLen : JValue → Except Unit Nat
  | .str s => .ok s.length
  | .arr xs => .ok xs.length
  | .obj fs => .ok fs.length
  | _ => .error ()

/-- Python `dict.get(key, default)` on a parsed JSON object. -/
def jget (fields : List (String × JValue)) (key : String) (dflt : JValue) : JValue :=
  match fields.find? (fun f => f.1 == key) with
  | some f => f.2
  | none => dflt

/-- A question dict as assembled by the formatting loop of
`_generate_ai_questions` (`id` is the synthetic string id; the other four
fields are the raw JSON values, with their `q_data.get` defaults). -/
structure AIQuestion where
  id : String
  topic : JValue
  question_text : JValue
  correct_answer : JValue
  options : JValue

/-- The question dict built for element `i` of the parsed array
(`q_data.get` with the source's defaults). -/
def build_question (i : Nat) (fields : List (String × JValue)) : AIQuestion :=
  { id := "ai_generated_" ++ toString i
    topic := jget fields "topic" (.str "PDF Content")
    question_text := jget fields "question_text" (.str "")
    correct_answer := jget fields "correct_answer" (.str "")
    options := jget fields "options" (.arr []) }

/-- The validation loop of `_generate_ai_questions` starting at index `i`:
non-dict elements are skipped, a question is kept when `question_text` and
`correct_answer` are truthy and `len(options) >= 2` (evaluated left-to-right
with Python short-circuiting, so `len` runs only after the two truthiness
checks); an unsized `options` raises, aborting the loop. -/
def format_questions_from (i : Nat) : List JValue → Except Unit (List AIQuestion)
  | [] => .ok []
  | e :: rest =>
    match e with
    | .obj fs =>
      let question := build_question i fs
      if truthy question.question_text then
        if truthy question.correct_answer then
          match pyLen question.options with
          | .error _ => .error ()
          | .ok n =>
            if 2 ≤ n then
              match format_questions_from (i + 1) rest with
              | .error _ => .error ()
              | .ok r => .ok (question :: r)
            else format_questions_from (i + 1) rest
        else format_questions_from (i + 1) rest
      else format_questions_from (i + 1) rest
    | _ => format_questions_from (i + 1) rest

/-- The whole formatting loop: `enumerate(questions_data[:questions_per_quiz])`
then per-element validation. -/
def format_questions (elems : List JValue) : Except Unit (List AIQuestion) :=
  format_questions_from 0 (elems.take questions_per_quiz)

/-- Embeds `QuizService._create_fallback_questions`: the single-question degenerate
fallback. -/
def create_fallback_questions : List AIQuestion :=
  [{ id := "fallback_1"
     topic := .str "PDF Content"
     question_text := .str "Based on the document you uploaded, what was the main topic discussed?"
     correct_answer := .str "Please review the document summary"
     options := .arr [.str "Please review the document summary",
       .str "The document was not processed correctly",
       .str "Unable to determine from the content",
       .str "Multiple topics were covered"] }]

/-- Embeds `QuizService._create_content_based_fallback`: the fixed 3-question generic
comprehension fallback. -/
def create_content_based_fallback : List AIQuestion :=
  [{ id := "content_fallback_1"
     topic := .str "Document Analysis"
     question_text := .str "What is the most effective way to understand a complex document?"
     correct_answer := .str "Read carefully and take notes on key concepts"
     options := .arr [.str "Read carefully and take notes on key concepts",
       .str "Skim through quickly without stopping",
       .str "Only read the first and last paragraphs",
       .str "Focus only on highlighted text"] },
   { id := "content_fallback_2"
     topic := .str "Learning Strategy"
     question_text := .str "When studying from a PDF document, what should you do first?"
     correct_answer := .str "Review the summary and identify main topics"
     options := .arr [.str "Review the summary and identify main topics",
       .str "Start reading from the middle",
       .str "Look only at images and charts",
       .str "Read the conclusion first"] },
   { id := "content_fallback_3"
     topic := .str "Comprehension"
     question_text := .str "How can you test your understanding of a document?"
     correct_answer := .str "Ask yourself questions about the content"
     options := .arr [.str "Ask yourself questions about the content",
       .str "Memorize the first paragraph",
       .str "Count the number of pages",
       .str "Focus only on the title"] }]

/-- Python `str.strip()` on a character list: remove leading and trailing
whitespace (the ASCII whitespace characters suffice for the verified inputs). -/
def pyStrip (cs : List Char) : List Char :=
  ((cs.dropWhile Char.isWhitespace).reverse.dropWhile Char.isWhitespace).reverse

/-- The Markdown-fence stripping of `_generate_ai_questions`
(`strip`, drop a leading "```json", drop a trailing "```", `strip` again). -/
def clean_response (s : String) : List Char :=
  let cleaned := pyStrip s.toList
  let cleaned := if "```json".toList.isPrefixOf cleaned then cleaned.drop 7 else cleaned
  let cleaned := if "```".toList.reverse.isPrefixOf cleaned.reverse then
      cleaned.take (cleaned.length - 3)
    else cleaned
  pyStrip cleaned

/-- Embeds `re.search(r'\[.*\]', cleaned_text, re.DOTALL)`: the greedy match from the
first `[` to the last following `]`, if any. -/
def extract_json_array (cs : List Char) : Option String :=
  match cs.findIdx? (· = '[') with
  | none => none
  | some i =>
    let after := (cs.drop (i + 1)).reverse
    match after.findIdx? (· = ']') with
    | none => none
    | some r => some (String.mk ((cs.drop i).take (after.length - r + 1)))

/-- Outcome of the awaited `gemini_service.get_response(context)` call:
either the `"text"` field of the returned dict, or an exception raised before
any text was returned. -/
inductive AIOutcome where
  | ok (text : String) : AIOutcome
  | raised : AIOutcome

/-- Embeds `QuizService._generate_ai_questions`, as a function of the AI-call outcome
and of the JSON parser (`json.loads`, uninterpreted; `none` models a
`json.JSONDecodeError`).  Every failure path of the source maps to the branch
the source takes: empty text to `_create_fallback_questions`; no JSON array,
parse error, non-list payload, an exception inside the formatting loop, zero
surviving questions, or an exception from the AI call itself, all to
`_create_content_based_fallback`. -/
def generate_ai_questions (ai : AIOutcome) (jsonParse : String → Option JValue) :
    List AIQuestion :=
  match ai with
  | .raised => create_content_based_fallback
  | .ok text =>
    if text = "" then create_fallback_questions
    else
      match extract_json_array (clean_response text) with
      | none => create_content_based_fallback
      | some sub =>
        match jsonParse sub with
        | none => create_content_based_fallback
        | some (.arr elems) =>
          match format_questions elems with
          | .error _ => create_content_based_fallback
          | .ok [] => create_content_based_fallback
          | .ok formatted => formatted
        | some _ => create_content_based_fallback

/-- The usable-payload classifier for the amended fallback contract: the
validated survivors of the parsed array, when the response text yields a JSON
array whose validation succeeds with at least one surviving question. -/
def ai_payload_questions (text : String) (jsonParse : String → Option JValue) :
    Option (List AIQuestion) :=
  match extract_json_array (clean_response text) with
  | none => none
  | some sub =>
    match jsonParse sub with
    | some (.arr elems) =>
      match format_questions elems with
      | .ok fq => if fq.isEmpty then none else some fq
      | .error _ => none
    | _ => none

/-- C3 counterexample: when the AI call itself raises, the source returns the
3-question generic fallback (`_create_content_based_fallback`), not the
single-question degenerate fallback (`_create_fallback_questions`) the claim
assigns to that tier. -/
theorem ai_exception_fallback_counterexample :
    generate_ai_questions .raised (fun _ => none) = create_content_based_fallback ∧
    generate_ai_questions .raised (fun _ => none) ≠ create_fallback_questions ∧
    create_content_based_fallback.length = 3 ∧ create_fallback_questions.length = 1 :=
  ⟨rfl, fun h => absurd (congrArg List.length h : (3 : Nat) = 1) (by decide), rfl, rfl⟩

/-- C3 (amended): the synthesizer returns the validated survivors when any
survive, the 3-question generic fallback when the returned text was non-empty
but unusable (no JSON array, parse error, non-array payload, a validation-loop
error, or zero survivors) and also when the AI call raised, and the
single-question degenerate fallback exactly when the AI returned empty text;
a non-empty list is returned in every case. -/
theorem ai_fallback_tiers (ai : AIOutcome) (jsonParse : String → Option JValue) :
    generate_ai_questions ai jsonParse ≠ [] ∧
    (ai = .raised → generate_ai_questions ai jsonParse = create_content_based_fallback) ∧
    (∀ text, ai = .ok text → text = "" →
      generate_ai_questions ai jsonParse = create_fallback_questions) ∧
    (∀ text, ai = .ok text → text ≠ "" →
      generate_ai_questions ai jsonParse =
        match ai_payload_questions text jsonParse with
        | some fq => fq
        | none => create_content_based_fallback) := by
  refine ⟨?_, ?_, ?_, ?_⟩
  case _ =>
    cases ai with
    | raised => simp [generate_ai_questions, create_content_based_fallback]
    | ok text =>
      by_cases htext : text = ""
      · simp [generate_ai_questions, htext, create_fallback_questions]
      · simp only [generate_ai_questions, htext, if_neg]
        cases hx : extract_json_array (clean_response text) with
        | none => simp [create_content_based_fallback]
        | some sub =>
          cases hq : jsonParse sub with
          | none => simp [hq, create_content_based_fallback]
          | some v =>
            cases v with
            | arr elems =>
              cases hf : format_questions elems with
              | error e => simp [hq, hf, create_content_based_fallback]
              | ok fq =>
                cases fq with
                | nil => simp [hq, hf, create_content_based_fallback]
                | cons a r => simp [hq, hf]
            | null => simp [hq, create_content_based_fallback]
            | bool b => simp [hq, create_content_based_fallback]
            | num n => simp [hq, create_content_based_fallback]
            | str s => simp [hq, create_content_based_fallback]
            | obj fs => simp [hq, create_content_based_fallback]
  case _ =>
    intro h
    subst h
    rfl
  case _ =>
    intro text h htext
    subst h
    simp [generate_ai_questions, htext]
  case _ =>
    intro text h htext
    subst h
    simp only [generate_ai_questions, ai_payload_questions, htext, if_neg]
    cases hx : extract_json_array (clean_response text) with
    | none => rfl
    | some sub =>
      cases hq : jsonParse sub with
      | none => simp [hq]
      | some v =>
        cases v with
        | arr elems =>
          cases hf : format_questions elems with
          | error e => simp [hq, hf]
          | ok fq =>
            cases fq with
            | nil => simp [hq, hf]
            | cons a r => simp [hq, hf]
        | null => simp [hq]
        | bool b => simp [hq]
        | num n => simp [hq]
        | str s => simp [hq]
        | obj fs => simp [hq]

/-- Validity of one parsed array element under the amended validation rule
(the source's actual check): a dict whose `question_text` and `correct_answer`
are truthy and whose `options` value has length at least 2; the `topic` field
is not required. -/
def valid_element : JValue → Bool
  | .obj fs =>
    truthy (jget fs "question_text" (.str "")) &&
      (truthy (jget fs "correct_answer" (.str "")) &&
        match pyLen (jget fs "options" (.arr [])) with
        | .ok n => 2 ≤ n
        | .error _ => false)
  | _ => false

/-- The question dict built from an element at index `i` (only reached on
dict elements). -/
def build_from (i : Nat) : JValue → AIQuestion
  | .obj fs => build_question i fs
  | _ => build_question i []

/-- The survivors the amended claim predicts: among the first
`questions_per_quiz` elements, exactly the valid ones, each formatted at its
index. -/
def kept_questions (elems : List JValue) : List AIQuestion :=
  (List.enumFrom 0 (elems.take questions_per_quiz)).filterMap fun p =>
    if valid_element p.2 then some (build_from p.1 p.2) else none

/-- A successful validation loop keeps exactly the valid elements, formatted
at their indices, and never more than it saw. -/
theorem format_questions_from_ok (l : List JValue) : ∀ (i : Nat) (r : List AIQuestion),
    format_questions_from i l = .ok r →
    r = (List.enumFrom i l).filterMap
        (fun p => if valid_element p.2 then some (build_from p.1 p.2) else none) ∧
    r.length ≤ l.length := by
  induction l with
  | nil =>
    intro i r h
    simp [format_questions_from] at h
    subst h
    simp
  | cons e rest ih =>
    intro i r h
    cases e with
    | obj fs =>
      simp only [format_questions_from] at h
      by_cases h1 : truthy (build_question i fs).question_text
      · simp only [h1, if_pos] at h
        by_cases h2 : truthy (build_question i fs).correct_answer
        · simp only [h2, if_pos] at h
          cases hlen : pyLen (build_question i fs).options with
          | error e' => rw [hlen] at h; exact absurd h (by simp)
          | ok n =>
            rw [hlen] at h
            by_cases h3 : 2 ≤ n
            · simp only [h3, if_pos] at h
              cases hrec : format_questions_from (i + 1) rest with
              | error e' => rw [hrec] at h; exact absurd h (by simp)
              | ok r' =>
                rw [hrec] at h
                simp only [Except.ok.injEq] at h
                subst h
                have hr' := ih (i + 1) r' hrec
                have hval : valid_element (.obj fs) = true := by
                  simp only [valid_element, build_question] at *
                  simp [h1, h2, hlen, h3]
                constructor
                · rw [List.enumFrom, List.filterMap_cons]
                  simp [hval, build_from, hr'.1]
                · simpa using Nat.succ_le_succ hr'.2
            · simp only [h3, if_neg, Bool.false_eq_true, not_false_eq_true] at h
              have hr := ih (i + 1) r h
              have hval : valid_element (.obj fs) = false := by
                simp only [valid_element, build_question] at *
                simp [h1, h2, hlen, h3]
              constructor
              · rw [List.enumFrom, List.filterMap_cons]
                simp [hval, hr.1]
              · exact le_trans hr.2 (Nat.le_succ _)
        · simp only [h2, if_neg, Bool.false_eq_true, not_false_eq_true] at h
          have hr := ih (i + 1) r h
          have hval : valid_element (.obj fs) = false := by
            simp only [valid_element, build_question] at *
            simp [h1, h2]
          constructor
          · rw [List.enumFrom, List.filterMap_cons]
            simp [hval, hr.1]
          · exact le_trans hr.2 (Nat.le_succ _)
      · simp only [h1, if_neg, Bool.false_eq_true, not_false_eq_true] at h
        have hr := ih (i + 1) r h
        have hval : valid_element (.obj fs) = false := by
          simp only [valid_element, build_question] at *
          simp [h1]
        constructor
        · rw [List.enumFrom, List.filterMap_cons]
          simp [hval, hr.1]
        · exact le_trans hr.2 (Nat.le_succ _)
    | null =>
      have hr := ih (i + 1) r h
      exact ⟨by rw [List.enumFrom, List.filterMap_cons]; simpa using hr.1,
        le_trans hr.2 (Nat.le_succ _)⟩
    | bool b =>
      have hr := ih (i + 1) r h
      exact ⟨by rw [List.enumFrom, List.filterMap_cons]; simpa using hr.1,
        le_trans hr.2 (Nat.le_succ _)⟩
    | num n =>
      have hr := ih (i + 1) r h
      exact ⟨by rw [List.enumFrom, List.filterMap_cons]; simpa using hr.1,
        le_trans hr.2 (Nat.le_succ _)⟩
    | str s =>
      have hr := ih (i + 1) r h
      exact ⟨by rw [List.enumFrom, List.filterMap_cons]; simpa using hr.1,
        le_trans hr.2 (Nat.le_succ _)⟩
    | arr xs =>
      have hr := ih (i + 1) r h
      exact ⟨by rw [List.enumFrom, List.filterMap_cons]; simpa using hr.1,
        le_trans hr.2 (Nat.le_succ _)⟩

/-- Fields of a parsed element that lacks a `topic` key but is otherwise
well-formed. -/
def no_topic_fields : List (String × JValue) :=
  [("question_text", .str "Q"), ("options", .arr [.str "A", .str "B"]),
    ("correct_answer", .str "A")]

/-- C4 counterexample: an element with `question_text`, 2 options and
`correct_answer` but no `topic` field is kept by the source (with the default
topic "PDF Content"), while the claim requires all four fields to be present
and so predicts it is dropped (which, as the only element, would have produced
the 3-question fallback). -/
theorem ai_validation_counterexample :
    no_topic_fields.find? (fun f => f.1 == "topic") = none ∧
    generate_ai_questions (.ok "[x]") (fun _ => some (.arr [.obj no_topic_fields]))
      = [build_question 0 no_topic_fields] ∧
    (build_question 0 no_topic_fields).topic = .str "PDF Content" ∧
    (generate_ai_questions (.ok "[x]")
        (fun _ => some (.arr [.obj no_topic_fields]))).length = 1 :=
  ⟨rfl, rfl, rfl, rfl⟩

/-- C4 (amended): whenever the validation loop completes without an error, the
kept questions are exactly the valid elements among the first five of the
parsed array — a dict with truthy `question_text` and `correct_answer` and at
least 2 `options` (`topic` optional, defaulted) — dropped individually
otherwise, with elements beyond the fifth ignored, so at most 5 survive. -/
theorem ai_validation_spec (elems : List JValue) (fq : List AIQuestion)
    (h : format_questions elems = .ok fq) :
    fq = kept_questions elems ∧ fq.length ≤ questions_per_quiz := by
  unfold format_questions at h
  have hr := format_questions_from_ok (elems.take questions_per_quiz) 0 fq h
  refine ⟨hr.1, le_trans hr.2 ?_⟩
  simp

/-- Fields of a fully well-formed parsed element. -/
def good_fields : List (String × JValue) :=
  [("question_text", .str "What is X?"), ("options", .arr [.str "A", .str "B",
    .str "C", .str "D"]), ("correct_answer", .str "A"), ("topic", .str "Science")]

/-- Fields of an element carrying only a single option. -/
def one_option_fields : List (String × JValue) :=
  [("question_text", .str "Q2"), ("options", .arr [.str "A"]),
    ("correct_answer", .str "A"), ("topic", .str "Science")]

/-- C4 witness: on an array holding a valid element and a sibling with only one
option, the loop succeeds keeping exactly the valid one. -/
theorem ai_validation_spec_witness :
    [build_question 0 good_fields]
      = kept_questions [.obj good_fields, .obj one_option_fields] ∧
    ([build_question 0 good_fields] : List AIQuestion).length ≤ questions_per_quiz :=
  ai_validation_spec [.obj good_fields, .obj one_option_fields]
    [build_question 0 good_fields] rfl

/-- C3 witness: with a parser producing one valid element from the response
"[x]", the tier theorem instantiated there makes the synthesizer return the
usable payload. -/
theorem ai_fallback_tiers_witness :
    generate_ai_questions (.ok "[x]") (fun _ => some (.arr [.obj good_fields]))
      = match ai_payload_questions "[x]" (fun _ => some (.arr [.obj good_fields])) with
        | some fq => fq
        | none => create_content_based_fallback :=
  (ai_fallback_tiers (.ok "[x]") (fun _ => some (.arr [.obj good_fields]))).2.2.2
    "[x]" rfl (by decide)

/-! ## Submission processing (`QuizService.submit_quiz_results`)

A session is a pair of database states: `committed` (durable) and `current`
(the session's view of the database rows, equal to `committed` between
requests).  Because sessions run with `autoflush=False`, the queries issued
inside one submission see only `current`'s rows: the Attempt inserts, new
TopicProgress rows and new Achievement rows of the same submission stay
pending and invisible until the final commit.  Failures are injected at the
two places a database error is caught in the source: `progress_fail` makes
the first query inside `_update_user_progress` raise (its `except` swallows
the error, leaving the unit's state unchanged), and `commit_ok = false` makes
the final `db.commit()` raise (the `except` of `submit_quiz_results` rolls
back and re-raises). -/

/-- A SQLAlchemy session over the quiz tables. -/
structure Session where
  committed : DB
  current : DB
deriving Repr, DecidableEq

/-- One entry of the `answers` payload of `submit_quiz_results`
(`{questionId, isCorrect}`). -/
structure Answer where
  questionId : Nat
  isCorrect : Bool
deriving Repr, DecidableEq

/-- The `QuizAttempt` row recorded for one answer (timestamped now). -/
def mk_attempt (user_id : Nat) (ans : Answer) (now : Int) : QuizAttempt :=
  ⟨user_id, ans.questionId, ans.isCorrect, now⟩

/-- Embeds `db.query(Question).filter(Question.id == qid).first()`. -/
def lookup_question (db : DB) (qid : Nat) : Option Question :=
  db.questions.find? fun q => q.id == qid

/-- Update one topic's tally in the `topic_stats` dict of
`_update_user_progress` (Python dicts preserve insertion order; a new key is
appended). -/
def bump_stat : List (String × Nat × Nat) → String → Bool → List (String × Nat × Nat)
  | [], topic, correct => [(topic, 1, if correct then 1 else 0)]
  | (t, tot, cor) :: rest, topic, correct =>
    if t == topic then (t, tot + 1, if correct then cor + 1 else cor) :: rest
    else (t, tot, cor) :: bump_stat rest topic correct

/-- The `topic_stats` dict of `_update_user_progress`: per-topic
`(total, correct)` over the answers whose question id resolves; unknown ids
are skipped. -/
def topic_stats (db : DB) (answers : List Answer) : List (String × Nat × Nat) :=
  answers.foldl
    (fun acc ans =>
      match lookup_question db ans.questionId with
      | none => acc
      | some q => bump_stat acc q.topic ans.isCorrect)
    []

/-- Replace the first list entry satisfying `p` by its image under `f`
(SQLAlchemy attribute mutation on the row returned by `.first()`). -/
def replace_first {α : Type} (p : α → Bool) (f : α → α) : List α → List α
  | [] => []
  | x :: xs => if p x then f x :: xs else x :: replace_first p f xs

/-- Embeds `db.query(UserProgress).filter(user_id, topic).first()` over the
query-visible progress rows (pending inserts of the same unit are invisible
under `autoflush=False`). -/
def find_progress (live : List UserProgress) (user_id : Nat) (topic : String) :
    Option UserProgress :=
  live.find? fun pr => pr.user_id == user_id && pr.topic == topic

/-- One iteration of the per-topic update loop of `_update_user_progress`,
over the pair (query-visible rows, pending inserts): the `.first()` query sees
only the visible rows; a created row (streak columns at their column defaults
`0`) becomes a pending insert, an existing row is mutated in place. -/
def apply_topic_progress (user_id : Nat) (now : Int)
    (st : List UserProgress × List UserProgress)
    (entry : String × Nat × Nat) : List UserProgress × List UserProgress :=
  match find_progress st.1 user_id entry.1 with
  | none =>
    (st.1, st.2 ++ [⟨user_id, entry.1, entry.2.1, entry.2.2, now, 0, 0⟩])
  | some _ =>
    ((replace_first
        (fun pr => pr.user_id == user_id && pr.topic == entry.1)
        (fun pr => { pr with
          total_questions := pr.total_questions + entry.2.1
          correct_answers := pr.correct_answers + entry.2.2
          last_activity := now })
        st.1), st.2)

/-- Embeds `db.query(UserProgress).filter(UserProgress.user_id == user_id).first()`:
the first progress row of the user in stored order. -/
def first_progress (db : DB) (user_id : Nat) : Option UserProgress :=
  db.progress.find? fun pr => pr.user_id == user_id

/-- Whether the user has any attempt on the given UTC day
(`func.date(QuizAttempt.timestamp) == day`). -/
def had_attempt_on (db : DB) (user_id : Nat) (day : Int) : Bool :=
  db.attempts.any fun a => a.user_id == user_id && a.timestamp == day

/-- The in-place mutation `_update_streak` performs on the fetched progress
row: increment `streak_days` on yesterday activity, else reset it to 1, then
raise `best_streak` when exceeded. -/
def streak_row_update (yesterday_activity : Bool) (pr : UserProgress) : UserProgress :=
  let streak_days := if yesterday_activity then pr.streak_days + 1 else 1
  let best_streak := if streak_days > pr.best_streak then streak_days
    else pr.best_streak
  { pr with streak_days := streak_days, best_streak := best_streak }

/-- Embeds `QuizService._update_streak` over the pair (query-visible rows,
pending inserts).  Both of its queries see only database-backed rows: with
`autoflush=False` the topic rows added earlier in the same submission are
still pending and invisible, as are the submission's own attempts.  With no
visible progress row the sentinel "general" row
(`streak_days = best_streak = 1`) becomes a pending insert; otherwise the
first visible row is mutated by `streak_row_update`. -/
def update_streak (db : DB) (user_id : Nat) (today : Int)
    (st : List UserProgress × List UserProgress) :
    List UserProgress × List UserProgress :=
  let yesterday := today - 1
  let yesterday_activity := had_attempt_on db user_id yesterday
  match st.1.find? (fun pr => pr.user_id == user_id) with
  | none => (st.1, st.2 ++ [⟨user_id, "general", 0, 0, today, 1, 1⟩])
  | some _ =>
    ((replace_first (fun pr => pr.user_id == user_id)
        (streak_row_update yesterday_activity) st.1), st.2)

/-- Embeds `QuizService._update_user_progress`: group the answers by resolved
topic, create-or-increment each topic's progress row, then update the streak.
The queries run against `db`'s rows; created rows stay pending
(`autoflush=False`) and flush after the existing rows at commit — the merge
`st.1 ++ st.2` is that flush order, and no later query of the unit reads the
progress table.  A database failure (injected as `progress_fail`, raising at
the first query) is caught by the surrounding `except`, leaving the unit's
state unchanged. -/
def update_user_progress (progress_fail : Bool) (db : DB) (user_id : Nat)
    (answers : List Answer) (now : Int) : DB :=
  if progress_fail then db
  else
    let stats := topic_stats db answers
    let st := stats.foldl (apply_topic_progress user_id now) (db.progress, [])
    let st := update_streak db user_id now st
    { db with progress := st.1 ++ st.2 }

/-- Embeds `db.query(QuizAttempt).filter(QuizAttempt.user_id == user_id).count()`. -/
def count_attempts (db : DB) (user_id : Nat) : Nat :=
  (db.attempts.filter fun a => a.user_id == user_id).length

/-- The existence check of the award loop of `_check_achievements`. -/
def has_achievement (db : DB) (user_id : Nat) (ty : String) : Bool :=
  db.achievements.any fun ach => ach.user_id == user_id && ach.achievement_type == ty

/-- The `perfect_score` achievement row assembled by `_check_achievements`. -/
def perfect_score_achievement (user_id total_count : Nat) (now : Int) : Achievement :=
  ⟨user_id, "perfect_score", "Perfect Score!",
    "Got all " ++ toString total_count ++ " questions correct in a quiz",
    "fa-star", now⟩

/-- The `first_quiz` achievement row assembled by `_check_achievements`. -/
def first_quiz_achievement (user_id : Nat) (now : Int) : Achievement :=
  ⟨user_id, "first_quiz", "Quiz Beginner", "Completed your first quiz",
    "fa-graduation-cap", now⟩

/-- One iteration of the award loop: insert unless an achievement of the same
type already exists for the user. -/
def award (user_id : Nat) (db : DB) (ach : Achievement) : DB :=
  if has_achievement db user_id ach.achievement_type then db
  else { db with achievements := db.achievements ++ [ach] }

/-- Embeds `QuizService._check_achievements`: queue `perfect_score` when
`correct_count == total_count and total_count >= 5`, queue `first_quiz` when
the user's visible attempt count (the submission's own pending attempt inserts
are invisible under `autoflush=False`, so `db` here carries the pre-submission
attempts) is at most the submission size, then award each queued achievement
idempotently.  The two queued rows have distinct types, so the existence
check of the second award is unaffected by the pending insert of the first. -/
def check_achievements (db : DB) (user_id correct_count total_count : Nat)
    (now : Int) : DB :=
  let to_award :=
    (if correct_count == total_count && 5 ≤ total_count then
      [perfect_score_achievement user_id total_count now] else [])
    ++ (if count_attempts db user_id ≤ total_count then
      [first_quiz_achievement user_id now] else [])
  to_award.foldl (award user_id) db

/-- Embeds `QuizService.submit_quiz_results`: tally the correct answers and
queue one Attempt insert per answer (pending, hence invisible to every query
the unit issues afterwards under `autoflush=False` — they are appended at
commit, after the unit's reads), update per-topic progress and the streak
(failures there are swallowed), check achievements against the visible
attempt count, then commit everything together; on a commit failure the unit
of work is rolled back and the exception re-raised (`.error` carries the
session after rollback). -/
def submit_quiz_results (commit_ok progress_fail : Bool) (s : Session)
    (user_id : Nat) (answers : List Answer) (now : Int) : Except Session Session :=
  let correct_count := (answers.filter fun a => a.isCorrect).length
  let db2 := update_user_progress progress_fail s.current user_id answers now
  let db3 := check_achievements db2 user_id correct_count answers.length now
  let db4 := { db3 with
    attempts := db3.attempts ++ answers.map fun a => mk_attempt user_id a now }
  if commit_ok then .ok ⟨db4, db4⟩
  else .error ⟨s.committed, s.committed⟩

/-- The progress updater touches only the `progress` table. -/
theorem update_user_progress_tables (progress_fail : Bool) (db : DB) (user_id : Nat)
    (answers : List Answer) (now : Int) :
    (update_user_progress progress_fail db user_id answers now).attempts = db.attempts ∧
    (update_user_progress progress_fail db user_id answers now).achievements
      = db.achievements ∧
    (update_user_progress progress_fail db user_id answers now).questions
      = db.questions := by
  cases progress_fail <;> exact ⟨rfl, rfl, rfl⟩

/-- Awarding touches only the `achievements` table. -/
theorem award_tables (user_id : Nat) (db : DB) (ach : Achievement) :
    (award user_id db ach).attempts = db.attempts ∧
    (award user_id db ach).progress = db.progress ∧
    (award user_id db ach).questions = db.questions := by
  unfold award
  split <;> exact ⟨rfl, rfl, rfl⟩

/-- The achievement checker touches only the `achievements` table. -/
theorem check_achievements_tables (db : DB) (user_id correct_count total_count : Nat)
    (now : Int) :
    (check_achievements db user_id correct_count total_count now).attempts
      = db.attempts ∧
    (check_achievements db user_id correct_count total_count now).progress
      = db.progress ∧
    (check_achievements db user_id correct_count total_count now).questions
      = db.questions := by
  unfold check_achievements
  generalize ((if correct_count == total_count && 5 ≤ total_count then
      [perfect_score_achievement user_id total_count now] else [])
    ++ (if count_attempts db user_id ≤ total_count then
      [first_quiz_achievement user_id now] else [])) = l
  induction l generalizing db with
  | nil => exact ⟨rfl, rfl, rfl⟩
  | cons a rest ih =>
    have h1 := award_tables user_id db a
    have h2 := ih (award user_id db a)
    exact ⟨h2.1.trans h1.1, h2.2.1.trans h1.2.1, h2.2.2.trans h1.2.2⟩

/-- C5: on a persistence failure at commit, the whole unit of work is rolled
back (the durable state is unchanged and the working view is restored to it)
and the exception is re-raised; on success, the commit publishes the working
view in full — in particular every Attempt of the submission is durable, and
nothing remains only partially applied (`current = committed`). -/
theorem submit_atomicity (commit_ok progress_fail : Bool) (s : Session)
    (user_id : Nat) (answers : List Answer) (now : Int) :
    (commit_ok = false →
      submit_quiz_results commit_ok progress_fail s user_id answers now
        = .error ⟨s.committed, s.committed⟩) ∧
    (commit_ok = true → ∃ s',
      submit_quiz_results commit_ok progress_fail s user_id answers now = .ok s' ∧
      s'.current = s'.committed ∧
      s'.committed.attempts
        = s.current.attempts ++ answers.map fun a => mk_attempt user_id a now) := by
  constructor
  · intro h
    subst h
    rfl
  · intro h
    subst h
    refine ⟨_, rfl, rfl, ?_⟩
    show (check_achievements
        (update_user_progress progress_fail s.current user_id answers now) user_id
        (answers.filter fun a => a.isCorrect).length answers.length now).attempts
        ++ answers.map (fun a => mk_attempt user_id a now)
      = s.current.attempts ++ answers.map fun a => mk_attempt user_id a now
    rw [(check_achievements_tables _ _ _ _ _).1,
      (update_user_progress_tables _ _ _ _ _).1]

/-- C5 witness: a concrete failed commit leaves the committed tables unchanged,
and a concrete successful commit persists both attempts. -/
theorem submit_atomicity_witness :
    submit_quiz_results false false ⟨weakDB, weakDB⟩ 1 [⟨1, true⟩, ⟨2, false⟩] 9
      = .error ⟨weakDB, weakDB⟩ ∧
    (∃ s', submit_quiz_results true false ⟨weakDB, weakDB⟩ 1 [⟨1, true⟩, ⟨2, false⟩] 9
        = .ok s' ∧ s'.current = s'.committed ∧
      s'.committed.attempts = weakDB.attempts
        ++ [mk_attempt 1 ⟨1, true⟩ 9, mk_attempt 1 ⟨2, false⟩ 9]) :=
  ⟨(submit_atomicity false false ⟨weakDB, weakDB⟩ 1 [⟨1, true⟩, ⟨2, false⟩] 9).1 rfl,
    (submit_atomicity true false ⟨weakDB, weakDB⟩ 1 [⟨1, true⟩, ⟨2, false⟩] 9).2 rfl⟩

/-- C10: a failure inside the progress updater is swallowed there and never
propagates: the submission still succeeds, its Attempt rows are committed, and
the progress aggregates are unchanged. -/
theorem progress_failure_contained (s : Session) (user_id : Nat)
    (answers : List Answer) (now : Int) :
    ∃ s', submit_quiz_results true true s user_id answers now = .ok s' ∧
      s'.committed.attempts
        = s.current.attempts ++ (answers.map fun a => mk_attempt user_id a now) ∧
      s'.committed.progress = s.current.progress := by
  refine ⟨_, rfl, ?_, ?_⟩
  · show (check_achievements
        (update_user_progress true s.current user_id answers now) user_id
        (answers.filter fun a => a.isCorrect).length answers.length now).attempts
        ++ answers.map (fun a => mk_attempt user_id a now)
      = s.current.attempts ++ answers.map fun a => mk_attempt user_id a now
    rw [(check_achievements_tables _ _ _ _ _).1,
      (update_user_progress_tables _ _ _ _ _).1]
  · show (check_achievements
        (update_user_progress true s.current user_id answers now) user_id
        (answers.filter fun a => a.isCorrect).length answers.length now).progress
      = s.current.progress
    rw [(check_achievements_tables _ _ _ _ _).2.1]
    rfl

/-! ### Achievement issuance (`QuizService._check_achievements`) -/

/-- After awarding an achievement of the user's own, the existence check for
its type holds. -/
theorem has_achievement_award_self (user_id : Nat) (db : DB) (a : Achievement)
    (ha : a.user_id = user_id) :
    has_achievement (award user_id db a) user_id a.achievement_type = true := by
  unfold award
  split
  · next h => exact h
  · simp [has_achievement, List.any_append, ha]

/-- Awarding leaves the existence check of every other type unchanged. -/
theorem has_achievement_award_other (user_id : Nat) (db : DB) (a : Achievement)
    (ty : String) (hne : a.achievement_type ≠ ty) :
    has_achievement (award user_id db a) user_id ty
      = has_achievement db user_id ty := by
  unfold award
  split
  · rfl
  · simp [has_achievement, List.any_append, hne]

/-- Effect of the achievement checker on the `perfect_score` existence check:
it holds afterwards exactly when it held before or the submission was a
perfect one of size at least 5. -/
theorem has_perfect_check (db : DB) (user_id correct_count total_count : Nat)
    (now : Int) :
    has_achievement (check_achievements db user_id correct_count total_count now)
        user_id "perfect_score"
      = (has_achievement db user_id "perfect_score"
        || (correct_count == total_count && decide (5 ≤ total_count))) := by
  unfold check_achievements
  by_cases hp : (correct_count == total_count && decide (5 ≤ total_count)) = true
  · simp only [hp, if_pos, List.singleton_append, List.foldl_cons]
    by_cases hf : count_attempts db user_id ≤ total_count
    · simp only [hf, if_pos, List.foldl_cons, List.foldl_nil]
      have h1 : has_achievement
          (award user_id
            (award user_id db (perfect_score_achievement user_id total_count now))
            (first_quiz_achievement user_id now)) user_id "perfect_score"
          = has_achievement
            (award user_id db (perfect_score_achievement user_id total_count now))
            user_id "perfect_score" :=
        has_achievement_award_other user_id _ _ "perfect_score"
          (by simp [first_quiz_achievement])
      have h2 : has_achievement
          (award user_id db (perfect_score_achievement user_id total_count now))
          user_id "perfect_score" = true :=
        has_achievement_award_self user_id db _ rfl
      rw [h1, h2]
      simp
    · simp only [hf, if_neg, not_false_eq_true, List.foldl_nil]
      have h2 : has_achievement
          (award user_id db (perfect_score_achievement user_id total_count now))
          user_id "perfect_score" = true :=
        has_achievement_award_self user_id db _ rfl
      rw [h2]
      simp
  · simp only [hp, Bool.false_eq_true, if_neg, not_false_eq_true, List.nil_append]
    have hc := eq_false_of_ne_true hp
    by_cases hf : count_attempts db user_id ≤ total_count
    · simp only [hf, if_pos, List.foldl_cons, List.foldl_nil]
      have h1 : has_achievement (award user_id db (first_quiz_achievement user_id now))
          user_id "perfect_score" = has_achievement db user_id "perfect_score" :=
        has_achievement_award_other user_id db _ "perfect_score"
          (by simp [first_quiz_achievement])
      rw [h1]
      simp
    · simp only [hf, if_neg, not_false_eq_true, List.foldl_nil]
      simp

/-- C6: a successful submission awards `perfect_score` exactly when every
answer was correct and there were at least 5 answers (and the user did not
already hold it): afterwards the user holds it iff they held it before or the
submission qualified. -/
theorem perfect_score_iff (progress_fail : Bool) (s : Session) (user_id : Nat)
    (answers : List Answer) (now : Int) (s' : Session)
    (h : submit_quiz_results true progress_fail s user_id answers now = .ok s') :
    has_achievement s'.committed user_id "perfect_score"
      = (has_achievement s.current user_id "perfect_score"
        || ((answers.filter fun a => a.isCorrect).length == answers.length
          && decide (5 ≤ answers.length))) := by
  unfold submit_quiz_results at h
  simp only [if_pos, Except.ok.injEq] at h
  subst h
  show has_achievement
      (check_achievements
        (update_user_progress progress_fail s.current user_id answers now) user_id
        (answers.filter fun a => a.isCorrect).length answers.length now)
      user_id "perfect_score" = _
  rw [has_perfect_check]
  have hpres := (update_user_progress_tables progress_fail s.current
    user_id answers now).2.1
  unfold has_achievement
  rw [hpres]

/-- Five all-correct answers. -/
def ans5 : List Answer := List.replicate 5 ⟨1, true⟩

/-- Five answers with one incorrect (4 of 5 correct). -/
def ans45 : List Answer := ⟨1, false⟩ :: List.replicate 4 ⟨1, true⟩

/-- C6 witness: submitting 5 of 5 correct awards `perfect_score`; submitting
4 of 5 does not. -/
theorem perfect_score_iff_witness :
    (∃ s', submit_quiz_results true false ⟨weakDB, weakDB⟩ 1 ans5 0 = .ok s' ∧
      has_achievement s'.committed 1 "perfect_score" = true) ∧
    (∃ s', submit_quiz_results true false ⟨weakDB, weakDB⟩ 1 ans45 0 = .ok s' ∧
      has_achievement s'.committed 1 "perfect_score" = false) := by
  constructor
  · refine ⟨_, rfl, ?_⟩
    rw [perfect_score_iff false ⟨weakDB, weakDB⟩ 1 ans5 0 _ rfl]
    decide
  · refine ⟨_, rfl, ?_⟩
    rw [perfect_score_iff false ⟨weakDB, weakDB⟩ 1 ans45 0 _ rfl]
    decide

/-- Number of achievement rows of one type held by one user. -/
def count_achievements (db : DB) (user_id : Nat) (ty : String) : Nat :=
  (db.achievements.filter fun a =>
    a.user_id == user_id && a.achievement_type == ty).length

/-- An award whose existence check already holds is skipped. -/
theorem award_already (user_id : Nat) (db : DB) (a : Achievement)
    (h : has_achievement db user_id a.achievement_type = true) :
    award user_id db a = db := by
  unfold award
  simp [h]

/-- Effect of the achievement checker on the `first_quiz` existence check. -/
theorem has_first_check (db : DB) (user_id correct_count total_count : Nat)
    (now : Int) :
    has_achievement (check_achievements db user_id correct_count total_count now)
        user_id "first_quiz"
      = (has_achievement db user_id "first_quiz"
        || decide (count_attempts db user_id ≤ total_count)) := by
  unfold check_achievements
  by_cases hp : (correct_count == total_count && decide (5 ≤ total_count)) = true
  · simp only [hp, if_pos, List.singleton_append, List.foldl_cons]
    by_cases hf : count_attempts db user_id ≤ total_count
    · simp only [hf, if_pos, List.foldl_cons, List.foldl_nil]
      have h1 : has_achievement
          (award user_id
            (award user_id db (perfect_score_achievement user_id total_count now))
            (first_quiz_achievement user_id now)) user_id "first_quiz" = true :=
        has_achievement_award_self user_id _ _ rfl
      rw [h1]
      simp [hf]
    · simp only [hf, if_neg, not_false_eq_true, List.foldl_nil]
      have h1 : has_achievement
          (award user_id db (perfect_score_achievement user_id total_count now))
          user_id "first_quiz" = has_achievement db user_id "first_quiz" :=
        has_achievement_award_other user_id db _ "first_quiz"
          (by simp [perfect_score_achievement])
      rw [h1]
      simp [hf]
  · simp only [hp, Bool.false_eq_true, if_neg, not_false_eq_true, List.nil_append]
    by_cases hf : count_attempts db user_id ≤ total_count
    · simp only [hf, if_pos, List.foldl_cons, List.foldl_nil]
      have h1 : has_achievement
          (award user_id db (first_quiz_achievement user_id now))
          user_id "first_quiz" = true :=
        has_achievement_award_self user_id db _ rfl
      rw [h1]
      simp [hf]
    · simp only [hf, if_neg, not_false_eq_true, List.foldl_nil]
      simp [hf]

/-- Awarding preserves "at most one achievement of each type per user". -/
theorem count_award_le (user_id : Nat) (db : DB) (a : Achievement) (ty : String)
    (h : count_achievements db user_id ty ≤ 1) :
    count_achievements (award user_id db a) user_id ty ≤ 1 := by
  unfold award
  split
  · exact h
  · next hhas =>
    unfold count_achievements at *
    rw [List.filter_append, List.length_append]
    by_cases hm : (a.user_id == user_id && a.achievement_type == ty) = true
    · have hty : a.achievement_type = ty := eq_of_beq (Bool.and_elim_right hm)
      have hz : (db.achievements.filter fun x =>
          x.user_id == user_id && x.achievement_type == ty) = [] := by
        rw [List.filter_eq_nil_iff]
        intro x hx hpx
        have hhas' : (db.achievements.any fun ach =>
            ach.user_id == user_id && ach.achievement_type == a.achievement_type)
            = false := eq_false_of_ne_true hhas
        rw [List.any_eq_false] at hhas'
        exact hhas' x hx (by rw [hty]; exact hpx)
      rw [hz]
      simp [hm]
    · simp only [hm, Bool.false_eq_true, List.filter_cons, if_neg,
        not_false_eq_true, List.filter_nil, List.length_nil]
      simpa using h

/-- C7: at most one achievement row of a given type per user — running the
checker a second time on the same qualifying submission changes nothing (the
existence check fires before every insert), and one run preserves the
at-most-one invariant for every type. -/
theorem achievement_unique (db : DB) (user_id correct_count total_count : Nat)
    (now now' : Int) (ty : String) :
    check_achievements (check_achievements db user_id correct_count total_count now)
        user_id correct_count total_count now'
      = check_achievements db user_id correct_count total_count now ∧
    (count_achievements db user_id ty ≤ 1 →
      count_achievements (check_achievements db user_id correct_count total_count now)
        user_id ty ≤ 1) := by
  constructor
  · have hatt : count_attempts
        (check_achievements db user_id correct_count total_count now) user_id
        = count_attempts db user_id := by
      unfold count_attempts
      rw [(check_achievements_tables db user_id correct_count total_count now).1]
    conv_lhs => rw [check_achievements]
    rw [hatt]
    by_cases hp : (correct_count == total_count && decide (5 ≤ total_count)) = true
    · simp only [hp, if_pos, List.singleton_append, List.foldl_cons]
      by_cases hf : count_attempts db user_id ≤ total_count
      · simp only [hf, if_pos, List.foldl_cons, List.foldl_nil]
        have e1 : award user_id
            (check_achievements db user_id correct_count total_count now)
            (perfect_score_achievement user_id total_count now')
            = check_achievements db user_id correct_count total_count now :=
          award_already user_id _ _
            (by show has_achievement
                  (check_achievements db user_id correct_count total_count now)
                  user_id "perfect_score" = true
                rw [has_perfect_check]; simp [hp])
        rw [e1]
        exact award_already user_id _ _
          (by show has_achievement
                (check_achievements db user_id correct_count total_count now)
                user_id "first_quiz" = true
              rw [has_first_check]; simp [hf])
      · simp only [hf, if_neg, not_false_eq_true, List.foldl_nil]
        exact award_already user_id _ _
          (by show has_achievement
                (check_achievements db user_id correct_count total_count now)
                user_id "perfect_score" = true
              rw [has_perfect_check]; simp [hp])
    · simp only [hp, Bool.false_eq_true, if_neg, not_false_eq_true, List.nil_append]
      by_cases hf : count_attempts db user_id ≤ total_count
      · simp only [hf, if_pos, List.foldl_cons, List.foldl_nil]
        exact award_already user_id _ _
          (by show has_achievement
                (check_achievements db user_id correct_count total_count now)
                user_id "first_quiz" = true
              rw [has_first_check]; simp [hf])
      · simp only [hf, if_neg, not_false_eq_true, List.foldl_nil]
  · intro h
    unfold check_achievements
    by_cases hp : (correct_count == total_count && decide (5 ≤ total_count)) = true
    · simp only [hp, if_pos, List.singleton_append, List.foldl_cons]
      by_cases hf : count_attempts db user_id ≤ total_count
      · simp only [hf, if_pos, List.foldl_cons, List.foldl_nil]
        exact count_award_le user_id _ _ ty (count_award_le user_id db _ ty h)
      · simp only [hf, if_neg, not_false_eq_true, List.foldl_nil]
        exact count_award_le user_id db _ ty h
    · simp only [hp, Bool.false_eq_true, if_neg, not_false_eq_true, List.nil_append]
      by_cases hf : count_attempts db user_id ≤ total_count
      · simp only [hf, if_pos, List.foldl_cons, List.foldl_nil]
        exact count_award_le user_id db _ ty h
      · simp only [hf, if_neg, not_false_eq_true, List.foldl_nil]
        exact h

/-- C7 witness: on a concrete database with no achievements, a second run of
the checker changes nothing and the perfect-score row stays unique. -/
theorem achievement_unique_witness :
    check_achievements (check_achievements weakDB 1 5 5 0) 1 5 5 7
      = check_achievements weakDB 1 5 5 0 ∧
    count_achievements (check_achievements weakDB 1 5 5 0) 1 "perfect_score" ≤ 1 :=
  ⟨(achievement_unique weakDB 1 5 5 0 7 "perfect_score").1,
    (achievement_unique weakDB 1 5 5 0 7 "perfect_score").2 (by decide)⟩

/-! ### Streak maintenance (`QuizService._update_streak`) -/

/-- Running `find?` after `replace_first` with the same predicate: the first
match is the image of the old first match, provided the update preserves the
predicate. -/
theorem find?_replace_first {α : Type} (p : α → Bool) (f : α → α)
    (hp : ∀ x, p x = true → p (f x) = true) :
    ∀ l : List α, (replace_first p f l).find? p = (l.find? p).map f := by
  intro l
  induction l with
  | nil => rfl
  | cons x xs ih =>
    by_cases hx : p x = true
    · simp only [replace_first, hx, if_pos]
      rw [List.find?_cons_of_pos _ (hp x hx), List.find?_cons_of_pos _ hx]
      rfl
    · simp only [replace_first, hx, Bool.false_eq_true, if_neg, not_false_eq_true]
      rw [List.find?_cons_of_neg _ hx, List.find?_cons_of_neg _ hx]
      exact ih

/-- Streak update when the user has a query-visible progress row: the first
visible row is mapped in place by `streak_row_update` and no pending insert is
made. -/
theorem update_streak_visible_some (db : DB) (user_id : Nat) (today : Int)
    (live pending : List UserProgress) (p : UserProgress)
    (h : live.find? (fun pr => pr.user_id == user_id) = some p) :
    ((update_streak db user_id today (live, pending)).1.find?
        (fun pr => pr.user_id == user_id))
      = some (streak_row_update (had_attempt_on db user_id (today - 1)) p) ∧
    (update_streak db user_id today (live, pending)).2 = pending := by
  unfold update_streak
  simp only [h]
  constructor
  · have hrw := find?_replace_first (fun pr : UserProgress => pr.user_id == user_id)
      (streak_row_update (had_attempt_on db user_id (today - 1)))
      (fun x hx => hx) live
    rw [hrw, h]
    rfl
  · trivial

/-- Streak update when the user has no query-visible progress row (in
particular on a first-ever submission, whose own topic rows are still
pending): the visible rows are untouched and the sentinel "general" row with
both streak fields 1 is queued as a pending insert. -/
theorem update_streak_visible_none (db : DB) (user_id : Nat) (today : Int)
    (live pending : List UserProgress)
    (h : live.find? (fun pr => pr.user_id == user_id) = none) :
    update_streak db user_id today (live, pending)
      = (live, pending ++ [⟨user_id, "general", 0, 0, today, 1, 1⟩]) := by
  unfold update_streak
  simp only [h]

/-- When the user has no query-visible progress row, the per-topic loop never
finds a row of the user, so it leaves the visible rows untouched and every
pending insert it makes is a row of the user with both streak fields at their
column default 0. -/
theorem topic_fold_no_user_rows (user_id : Nat) (now : Int) :
    ∀ (stats : List (String × Nat × Nat)) (live pending : List UserProgress),
      (∀ pr ∈ live, pr.user_id ≠ user_id) →
      ((stats.foldl (apply_topic_progress user_id now) (live, pending)).1 = live ∧
       (∀ pr ∈ (stats.foldl (apply_topic_progress user_id now) (live, pending)).2,
        pr ∈ pending ∨
          (pr.user_id = user_id ∧ pr.streak_days = 0 ∧ pr.best_streak = 0))) := by
  intro stats
  induction stats with
  | nil =>
    intro live pending hlive
    exact ⟨rfl, fun pr hpr => Or.inl hpr⟩
  | cons e rest ih =>
    intro live pending hlive
    rw [List.foldl_cons]
    have hnone : find_progress live user_id e.1 = none := by
      unfold find_progress
      rw [List.find?_eq_none]
      intro x hx
      simp only [Bool.and_eq_true, beq_iff_eq, not_and]
      intro hu
      exact absurd hu (hlive x hx)
    have hstep : apply_topic_progress user_id now (live, pending) e
        = (live, pending ++ [⟨user_id, e.1, e.2.1, e.2.2, now, 0, 0⟩]) := by
      unfold apply_topic_progress
      rw [hnone]
    rw [hstep]
    have := ih live (pending ++ [⟨user_id, e.1, e.2.1, e.2.2, now, 0, 0⟩]) hlive
    refine ⟨this.1, fun pr hpr => ?_⟩
    rcases this.2 pr hpr with hmem | hnew
    · rcases List.mem_append.mp hmem with hmem | hmem
      · exact Or.inl hmem
      · rcases List.mem_singleton.mp hmem with rfl
        exact Or.inr ⟨rfl, rfl, rfl⟩
    · exact Or.inr hnew

/-- C8 counterexample: on a user's first-ever submission the claim's
"initializes streak_days = best_streak = 1" fails — with `autoflush=False`
the streak query cannot see the topic row created earlier in the same
submission, so that row keeps the column default `streak_days = 0` and is the
user's first progress row after commit; the 1/1 initialization lands on a
separate sentinel "general" row appended after it. -/
theorem streak_first_submission_counterexample :
    ∃ s', submit_quiz_results true false
        ⟨⟨[mkQ 1 "algebra"], [], [], []⟩, ⟨[mkQ 1 "algebra"], [], [], []⟩⟩
        1 [⟨1, true⟩] 5 = .ok s' ∧
      first_progress s'.committed 1 = some ⟨1, "algebra", 1, 1, 5, 0, 0⟩ ∧
      (⟨1, "general", 0, 0, 5, 1, 1⟩ : UserProgress) ∈ s'.committed.progress := by
  refine ⟨_, rfl, ?_, ?_⟩ <;> decide

/-- C8 (amended): on each submission the streak updater works on the
query-visible progress rows (`autoflush=False`): if the user has a visible
row, the first one has `streak_days` incremented by exactly 1 when the user
had any visible attempt on yesterday's UTC date and reset to 1 when not, with
`best_streak` kept as a high-water mark; with no visible row — in particular
on a first-ever submission, whose own topic rows are still pending — a
separate sentinel "general" row is created with
`streak_days = best_streak = 1`, while the topic rows created by the same
submission keep `streak_days = best_streak = 0`. -/
theorem streak_update_spec (db : DB) (user_id : Nat) (today : Int) :
    (∀ (live pending : List UserProgress) (p : UserProgress),
      live.find? (fun pr => pr.user_id == user_id) = some p →
      ((update_streak db user_id today (live, pending)).1.find?
          (fun pr => pr.user_id == user_id))
        = some { p with
            streak_days :=
              if had_attempt_on db user_id (today - 1) then p.streak_days + 1 else 1
            best_streak := max p.best_streak
              (if had_attempt_on db user_id (today - 1) then p.streak_days + 1
                else 1) }) ∧
    (∀ (live pending : List UserProgress),
      live.find? (fun pr => pr.user_id == user_id) = none →
      update_streak db user_id today (live, pending)
        = (live, pending ++ [⟨user_id, "general", 0, 0, today, 1, 1⟩])) ∧
    (∀ (s : Session) (answers : List Answer) (s' : Session),
      (∀ pr ∈ s.current.progress, pr.user_id ≠ user_id) →
      (∀ a ∈ s.current.attempts, a.user_id ≠ user_id) →
      submit_quiz_results true false s user_id answers today = .ok s' →
      ((⟨user_id, "general", 0, 0, today, 1, 1⟩ : UserProgress)
          ∈ s'.committed.progress ∧
        ∀ pr ∈ s'.committed.progress, pr.user_id = user_id →
          (pr.streak_days = 0 ∧ pr.best_streak = 0) ∨
            pr = ⟨user_id, "general", 0, 0, today, 1, 1⟩)) := by
  have hmax : ∀ a b : Nat, (if a > b then a else b) = max b a := by
    intro a b
    rw [Nat.max_def]
    split <;> split <;> omega
  refine ⟨?_, update_streak_visible_none db user_id today, ?_⟩
  · intro live pending p hp
    rw [(update_streak_visible_some db user_id today live pending p hp).1]
    unfold streak_row_update
    simp only
    rw [hmax]
  · intro s answers s' hprog hatt hsub
    unfold submit_quiz_results at hsub
    simp only [if_pos, Except.ok.injEq] at hsub
    subst hsub
    have hprogeq : (check_achievements
        (update_user_progress false s.current user_id answers today) user_id
        (answers.filter fun a => a.isCorrect).length answers.length
        today).progress
        = (update_user_progress false s.current user_id answers today).progress :=
      (check_achievements_tables _ _ _ _ _).2.1
    have hfold := topic_fold_no_user_rows user_id today
      (topic_stats s.current answers) s.current.progress [] hprog
    have hnone : ((topic_stats s.current answers).foldl
        (apply_topic_progress user_id today)
        (s.current.progress, [])).1.find? (fun pr => pr.user_id == user_id)
        = none := by
      rw [hfold.1, List.find?_eq_none]
      intro x hx
      simp only [beq_iff_eq]
      exact hprog x hx
    have hupd : (update_user_progress false s.current user_id answers today).progress
        = s.current.progress
          ++ (((topic_stats s.current answers).foldl
            (apply_topic_progress user_id today) (s.current.progress, [])).2
          ++ [⟨user_id, "general", 0, 0, today, 1, 1⟩]) := by
      unfold update_user_progress
      simp only [Bool.false_eq_true, if_neg, not_false_eq_true]
      rw [update_streak_visible_none _ _ _ _ _ hnone]
      simp only
      rw [hfold.1]
    constructor
    · show (⟨user_id, "general", 0, 0, today, 1, 1⟩ : UserProgress)
        ∈ (check_achievements
          (update_user_progress false s.current user_id answers today) user_id
          (answers.filter fun a => a.isCorrect).length answers.length
          today).progress
      rw [hprogeq, hupd]
      simp
    · intro pr hpr hu
      have hpr' : pr ∈ (check_achievements
          (update_user_progress false s.current user_id answers today) user_id
          (answers.filter fun a => a.isCorrect).length answers.length
          today).progress := hpr
      rw [hprogeq, hupd] at hpr'
      rcases List.mem_append.mp hpr' with hmem | hmem
      · exact absurd hu (hprog pr hmem)
      · rcases List.mem_append.mp hmem with hmem | hmem
        · rcases hfold.2 pr hmem with hmem0 | hnew
          · exact absurd hmem0 (List.not_mem_nil pr)
          · exact Or.inl ⟨hnew.2.1, hnew.2.2⟩
        · exact Or.inr (List.mem_singleton.mp hmem)

/-- C8 witness: on concrete visible rows, a user with an attempt yesterday has
the streak incremented by exactly 1 and one without has it reset to 1; and a
concrete first-ever submission yields the sentinel row with the other user
rows at streak 0. -/
theorem streak_update_spec_witness :
    (((update_streak ⟨[], [mkAtt 1 1 true 9], [], []⟩ 1 10
        ([⟨1, "algebra", 3, 1, 9, 4, 6⟩], [])).1.find?
      (fun pr => pr.user_id == 1)) = some ⟨1, "algebra", 3, 1, 9, 5, 6⟩) ∧
    (((update_streak ⟨[], [], [], []⟩ 1 10
        ([⟨1, "algebra", 3, 1, 9, 4, 6⟩], [])).1.find?
      (fun pr => pr.user_id == 1)) = some ⟨1, "algebra", 3, 1, 9, 1, 6⟩) ∧
    (∃ s', submit_quiz_results true false
        ⟨⟨[mkQ 1 "algebra"], [], [], []⟩, ⟨[mkQ 1 "algebra"], [], [], []⟩⟩
        1 [⟨1, true⟩] 7 = .ok s' ∧
      (⟨1, "general", 0, 0, 7, 1, 1⟩ : UserProgress) ∈ s'.committed.progress) := by
  refine ⟨?_, ?_, ?_⟩
  · rw [(streak_update_spec ⟨[], [mkAtt 1 1 true 9], [], []⟩ 1 10).1
      [⟨1, "algebra", 3, 1, 9, 4, 6⟩] [] ⟨1, "algebra", 3, 1, 9, 4, 6⟩ (by decide)]
    decide
  · rw [(streak_update_spec ⟨[], [], [], []⟩ 1 10).1
      [⟨1, "algebra", 3, 1, 9, 4, 6⟩] [] ⟨1, "algebra", 3, 1, 9, 4, 6⟩ (by decide)]
    decide
  · refine ⟨_, rfl, ?_⟩
    exact ((streak_update_spec (⟨[mkQ 1 "algebra"], [], [], []⟩ : DB) 1 7).2.2
      ⟨⟨[mkQ 1 "algebra"], [], [], []⟩, ⟨[mkQ 1 "algebra"], [], [], []⟩⟩
      [⟨1, true⟩] _ (by decide) (by decide) rfl).1


/-! ## Dashboard aggregation (`QuizService.get_dashboard_data`)

At day granularity the two window filters of the source
(`func.date(timestamp) >= start_date` for the totals,
`timestamp >= start_date` for the activity and topic rollups) coincide. -/

/-- One entry of the `recent_activity` chart series. -/
structure ActivityEntry where
  date : Int
  score : Nat
  topic : String
deriving Repr, DecidableEq

/-- One entry of the `topic_performance` breakdown. -/
structure TopicPerf where
  topic : String
  correct : Nat
  total : Nat
  percentage : Nat
deriving Repr, DecidableEq

/-- The dashboard snapshot payload returned by `get_dashboard_data`. -/
structure DashboardData where
  overall_score : Nat
  total_questions : Nat
  correct_answers : Nat
  recent_activity : List ActivityEntry
  topic_performance : List TopicPerf
  streak : Nat
  achievements : List Achievement
deriving Repr, DecidableEq

/-- The lookback window start of `get_dashboard_data`: week / month / year,
defaulting to week. -/
def dashboard_start_date (today : Int) (range_str : String) : Int :=
  if range_str == "week" then today - 7
  else if range_str == "month" then today - 30
  else if range_str == "year" then today - 365
  else today - 7

/-- The user's attempts inside the lookback window, in stored order. -/
def attempts_in_window (db : DB) (user_id : Nat) (start_date : Int) :
    List QuizAttempt :=
  db.attempts.filter fun a => a.user_id == user_id && start_date ≤ a.timestamp

/-- The `GROUP BY func.date(timestamp) ... ORDER BY date` keys of
`_get_recent_activity`: the distinct attempt days, ascending. -/
def activity_dates (db : DB) (user_id : Nat) (start_date : Int) : List Int :=
  (((attempts_in_window db user_id start_date).map
    (fun a => a.timestamp)).dedup).insertionSort fun x y => x ≤ y

/-- Embeds `QuizService._get_recent_activity`: one `(date, score, "Mixed")` entry per
attempt day in the window, ascending by date; the score is the truncated
percentage of correct attempts that day. -/
def get_recent_activity (db : DB) (user_id : Nat) (start_date : Int) :
    List ActivityEntry :=
  (activity_dates db user_id start_date).map fun d =>
    let day := (attempts_in_window db user_id start_date).filter
      fun a => a.timestamp == d
    let total := day.length
    let correct := (day.filter fun a => a.is_correct).length
    { date := d
      score := if 0 < total then correct * 100 / total else 0
      topic := "Mixed" }

/-- Embeds `QuizService._get_topic_performance`: per-topic `(correct, total,
percentage)` over the window, by join with the questions table. -/
def get_topic_performance (db : DB) (user_id : Nat) (start_date : Int) :
    List TopicPerf :=
  let rows := db.questions.flatMap fun q =>
    (db.attempts.filter fun a => a.question_id == q.id && a.user_id == user_id
      && start_date ≤ a.timestamp).map fun a => (q.topic, a.is_correct)
  ((rows.map Prod.fst).dedup).map fun t =>
    let total := (rows.filter fun r => r.1 == t).length
    let correct := (rows.filter fun r => r.1 == t && r.2).length
    { topic := t
      correct := correct
      total := total
      percentage := if 0 < total then correct * 100 / total else 0 }

/-- Embeds `QuizService._get_current_streak`: `streak_days` of the user's first
progress row, else 0. -/
def get_current_streak (db : DB) (user_id : Nat) : Nat :=
  match first_progress db user_id with
  | some pr => pr.streak_days
  | none => 0

/-- Embeds `QuizService._get_user_achievements`: the user's achievement rows, newest
first (stable sort descending by `earned_date`). -/
def get_user_achievements (db : DB) (user_id : Nat) : List Achievement :=
  (db.achievements.filter fun a => a.user_id == user_id).insertionSort
    fun x y => y.earned_date ≤ x.earned_date

/-- Embeds `QuizService.get_dashboard_data`. -/
def get_dashboard_data (db : DB) (user_id : Nat) (range_str : String)
    (today : Int) : DashboardData :=
  let start_date := dashboard_start_date today range_str
  let total_attempts := (db.attempts.filter fun a =>
    a.user_id == user_id && start_date ≤ a.timestamp).length
  let correct_attempts := (db.attempts.filter fun a =>
    a.user_id == user_id && a.is_correct && start_date ≤ a.timestamp).length
  { overall_score :=
      if 0 < total_attempts then correct_attempts * 100 / total_attempts else 0
    total_questions := total_attempts
    correct_answers := correct_attempts
    recent_activity := get_recent_activity db user_id start_date
    topic_performance := get_topic_performance db user_id start_date
    streak := get_current_streak db user_id
    achievements := get_user_achievements db user_id }

/-- C9: with `time_range = "week"`, an attempt 8 days before today is counted
neither in `total_questions` nor in any entry of `recent_activity` (adding it
changes neither), while a user's attempt 2 days before today increments
`total_questions` and shows up as a `recent_activity` entry for its date. -/
theorem dashboard_week_window (db : DB) (user_id : Nat) (today : Int)
    (att8 att2 : QuizAttempt)
    (h8 : att8.timestamp = today - 8)
    (h2u : att2.user_id = user_id) (h2 : att2.timestamp = today - 2) :
    ((get_dashboard_data { db with attempts := db.attempts ++ [att8] }
        user_id "week" today).total_questions
      = (get_dashboard_data db user_id "week" today).total_questions) ∧
    ((get_dashboard_data { db with attempts := db.attempts ++ [att8] }
        user_id "week" today).recent_activity
      = (get_dashboard_data db user_id "week" today).recent_activity) ∧
    ((get_dashboard_data { db with attempts := db.attempts ++ [att2] }
        user_id "week" today).total_questions
      = (get_dashboard_data db user_id "week" today).total_questions + 1) ∧
    (∃ e ∈ (get_dashboard_data { db with attempts := db.attempts ++ [att2] }
        user_id "week" today).recent_activity, e.date = today - 2) := by
  have hstart : dashboard_start_date today "week" = today - 7 := rfl
  have hp8 : ∀ p : QuizAttempt → Bool,
      (∀ a, p a = (a.user_id == user_id && decide (today - 7 ≤ a.timestamp))) →
      p att8 = false := by
    intro p hp
    rw [hp att8, h8]
    simp only [Bool.and_eq_false_iff, decide_eq_false_iff_not]
    right
    omega
  refine ⟨?_, ?_, ?_, ?_⟩
  · simp only [get_dashboard_data, hstart]
    rw [List.filter_append]
    rw [show List.filter (fun a =>
        a.user_id == user_id && decide (today - 7 ≤ a.timestamp)) [att8] = [] by
      simp only [List.filter_cons, List.filter_nil]
      rw [hp8 _ (fun a => rfl)]
      simp]
    simp
  · simp only [get_dashboard_data, hstart]
    have hwin : attempts_in_window { db with attempts := db.attempts ++ [att8] }
        user_id (today - 7) = attempts_in_window db user_id (today - 7) := by
      unfold attempts_in_window
      simp only
      rw [List.filter_append]
      rw [show List.filter (fun a =>
          a.user_id == user_id && decide (today - 7 ≤ a.timestamp)) [att8] = [] by
        simp only [List.filter_cons, List.filter_nil]
        rw [hp8 _ (fun a => rfl)]
        simp]
      simp
    unfold get_recent_activity activity_dates
    rw [hwin]
  · simp only [get_dashboard_data, hstart]
    rw [List.filter_append]
    rw [show List.filter (fun a =>
        a.user_id == user_id && decide (today - 7 ≤ a.timestamp)) [att2] = [att2] by
      simp only [List.filter_cons, List.filter_nil]
      rw [show (att2.user_id == user_id && decide (today - 7 ≤ att2.timestamp))
          = true by
        rw [h2u, h2]
        simp only [beq_self_eq_true, Bool.true_and, decide_eq_true_eq]
        omega]
      simp]
    simp
  · have hmem : att2 ∈ attempts_in_window { db with attempts := db.attempts ++ [att2] }
        user_id (today - 7) := by
      unfold attempts_in_window
      simp only
      rw [List.mem_filter]
      refine ⟨by simp, ?_⟩
      rw [h2u, h2]
      simp only [beq_self_eq_true, Bool.true_and, decide_eq_true_eq]
      omega
    have hdate : (today - 2) ∈ activity_dates
        { db with attempts := db.attempts ++ [att2] } user_id (today - 7) := by
      unfold activity_dates
      rw [(List.perm_insertionSort _ _).mem_iff, List.mem_dedup]
      exact List.mem_map.mpr ⟨att2, hmem, h2⟩
    simp only [get_dashboard_data, hstart]
    unfold get_recent_activity
    refine ⟨_, List.mem_map.mpr ⟨today - 2, hdate, rfl⟩, rfl⟩

/-- C1 witness: on `weakDB`, "algebra" is returned by the detector, and the
theorem instantiated there yields its floor and threshold facts. -/
theorem weak_topics_spec_witness :
    "algebra" ∈ user_topics weakDB 1 ∧ 3 ≤ topic_total weakDB 1 "algebra" ∧
      topic_accuracy weakDB 1 "algebra" < weak_threshold :=
  (weak_topics_spec weakDB 1 3).1 "algebra" (by decide)

/-- C2 witness: with a pool of only 2 questions the generator returns exactly
2 projections with distinct ids. -/
theorem generate_quiz_spec_witness :
    (generate_adaptive_quiz twoQDB 1 none).length = 2 ∧
      ((generate_adaptive_quiz twoQDB 1 none).map QuestionOut.id).Nodup := by
  have h := generate_quiz_spec twoQDB 1 none (by decide)
  refine ⟨?_, h.2⟩
  rw [h.1]
  decide

/-- C9 witness: on a concrete database with one in-window attempt, at
`today = 10` the day-2 attempt (8 days back) changes neither rollup while the
day-8 attempt (2 days back) is counted in both. -/
theorem dashboard_week_window_witness :
    ((get_dashboard_data ⟨[], [mkAtt 1 5 true 10, mkAtt 1 6 true 2], [], []⟩
        1 "week" 10).total_questions
      = (get_dashboard_data ⟨[], [mkAtt 1 5 true 10], [], []⟩
        1 "week" 10).total_questions) ∧
    ((get_dashboard_data ⟨[], [mkAtt 1 5 true 10, mkAtt 1 6 true 2], [], []⟩
        1 "week" 10).recent_activity
      = (get_dashboard_data ⟨[], [mkAtt 1 5 true 10], [], []⟩
        1 "week" 10).recent_activity) ∧
    ((get_dashboard_data ⟨[], [mkAtt 1 5 true 10, mkAtt 1 7 false 8], [], []⟩
        1 "week" 10).total_questions
      = (get_dashboard_data ⟨[], [mkAtt 1 5 true 10], [], []⟩
        1 "week" 10).total_questions + 1) ∧
    (∃ e ∈ (get_dashboard_data ⟨[], [mkAtt 1 5 true 10, mkAtt 1 7 false 8], [], []⟩
        1 "week" 10).recent_activity, e.date = (10 : Int) - 2) :=
  dashboard_week_window ⟨[], [mkAtt 1 5 true 10], [], []⟩ 1 10
    (mkAtt 1 6 true 2) (mkAtt 1 7 false 8) (by decide) (by decide) (by decide)

end QuizService
